import Mathlib

/-!
Verification development for `final.py` (dancelight-final): a loader for a
JSON array of product records and a filter/report function
(`filter_products`) over them.

Modelling conventions:
* Python/JSON values are embedded as the inductive `JValue`.  JSON numbers
  parse in Python to `int` or `float`; we keep the two constructors `jint`
  and `jfloat`, with `float` abstracted by `Rat` (the claims under scrutiny
  concern coercion defaults, bound comparisons and ordering, none of which
  depend on binary floating point rounding).
* `dict.get(key, default)` on a record is `jLookup` + `Option.getD`.
  Calling `.get` on a non-mapping value raises `AttributeError` in Python;
  fallible code therefore lives in `Except String`, with `getAttrErr` as
  the error value.
* `str(v)` is `pyStr`; the rendering of nested containers (Python `repr`
  of the elements) is abstracted to a fixed token, since no claim touches
  it.
* `float(v)` is `pyFloat?`, returning `none` where Python raises; the
  surrounding `try/except` of `num` (final.py lines 58-62) turns `none`
  into `0.0`.
-/

/-- A JSON value as Python's `json.load` produces it (final.py line 22). -/
inductive JValue where
  | jnull
  | jbool (b : Bool)
  | jint (n : Int)
  | jfloat (q : Rat)
  | jstr (s : String)
  | jarr (elems : List JValue)
  | jobj (fields : List (String × JValue))

/-- Lookup in a JSON object; later bindings shadow earlier ones, as in a
Python dict built by `json.load`. -/
def jLookup (fields : List (String × JValue)) (key : String) : Option JValue :=
  match fields with
  | [] => none
  | (k, v) :: rest =>
    match jLookup rest key with
    | some w => some w
    | none => if k = key then some v else none

/-- `JValue.isObj p` holds when `p` is a JSON object, i.e. a Python dict
(the only receiver on which `.get` does not raise). -/
def JValue.isObj : JValue → Bool
  | .jobj _ => true
  | _ => false

/-- `JValue.isArr p` holds when `p` is a JSON array (Python list). -/
def JValue.isArr : JValue → Bool
  | .jarr _ => true
  | _ => false

/-- Python's `sep.join(parts)`. -/
def pyJoin (sep : String) : List String → String
  | [] => ""
  | [x] => x
  | x :: y :: xs => x ++ sep ++ pyJoin sep (y :: xs)

/-- Rendering of a Python float.  Exact decimal repr of binary floats is
outside the model; integral values render as `n.0` as Python does, other
values by a canonical fraction.  No claim depends on this rendering. -/
def floatRepr (q : Rat) : String :=
  if q.den = 1 then toString q.num ++ ".0" else toString q.num ++ "/" ++ toString q.den

/-- Python `str(v)` for a JSON value: `None`, `True`/`False`, decimal
integers, strings verbatim.  Nested containers are abstracted (no claim
exercises their repr). -/
def pyStr : JValue → String
  | .jnull => "None"
  | .jbool true => "True"
  | .jbool false => "False"
  | .jint n => toString n
  | .jfloat q => floatRepr q
  | .jstr s => s
  | .jarr _ => "[...]"
  | .jobj _ => "\x7b...\x7d"

/-- Decimal value of a digit string (helper for `pyFloat?`). -/
def decVal (l : List Char) : Nat :=
  l.foldl (fun n c => n * 10 + (c.toNat - 48)) 0

/-- Python `str.strip()`: remove whitespace from both ends. -/
def pyStrip (s : String) : String :=
  String.mk (((s.toList.dropWhile Char.isWhitespace).reverse.dropWhile
    Char.isWhitespace).reverse)

/-- Python `float(string)`: strip whitespace, optional sign, decimal
digits with at most one point (`"12"`, `"12."`, `".5"`, `"-3.25"`).
Exponent and `inf`/`nan` forms are not modelled; no claim uses them. -/
def parsePyFloat (s : String) : Option Rat :=
  let t := (pyStrip s).toList
  let sgBody : Int × List Char :=
    match t with
    | '-' :: r => (-1, r)
    | '+' :: r => (1, r)
    | _ => (1, t)
  let sg := sgBody.1
  let body := sgBody.2
  if body.isEmpty then none
  else
    match body.splitOn '.' with
    | [ds] =>
      if ds.all Char.isDigit then some ((sg : Rat) * (decVal ds : Rat)) else none
    | [ip, fp] =>
      if (ip.isEmpty && fp.isEmpty) then none
      else if ip.all Char.isDigit && fp.all Char.isDigit then
        some ((sg : Rat) * ((decVal ip : Rat) + (decVal fp : Rat) / ((10 : Rat) ^ fp.length)))
      else none
    | _ => none

/-- Python `float(v)` on a JSON value: `none` marks the cases where the
builtin raises (`None`, containers, unparsable strings); these are the
cases the bare `except` of `num` (final.py line 61) catches. -/
def pyFloat? : JValue → Option Rat
  | .jint n => some (n : Rat)
  | .jfloat q => some q
  | .jbool b => some (if b then 1 else 0)
  | .jstr s => parsePyFloat s
  | _ => none

/-- `num` (final.py lines 58-62): `float(v)` with every conversion failure
swallowed to `0.0`. -/
def num (v : JValue) : Rat :=
  (pyFloat? v).getD 0

/-- The numeric reading of a record attribute used by the filter loop
(final.py lines 66-70): `num(p.get(key, 0))` — an absent key defaults to
the integer `0` before coercion. -/
def attrNum (fields : List (String × JValue)) (key : String) : Rat :=
  num ((jLookup fields key).getD (.jint 0))

/-- Error value standing for Python's `AttributeError` when `.get` is
called on a non-mapping record element. -/
def getAttrErr : String :=
  "AttributeError: object has no attribute get"

/-- `str(p.get(key, default))` as used inside the report f-string
(final.py lines 90-96); the default is already a string. -/
def fmtGetB (fields : List (String × JValue)) (key dflt : String) : String :=
  match jLookup fields key with
  | some v => pyStr v
  | none => dflt

/-- `str(p.get(key, default))` on an arbitrary record element: raises
(`.error`) when the receiver is not a mapping. -/
def fmtGet (p : JValue) (key dflt : String) : Except String String :=
  match p with
  | .jobj fields => .ok (fmtGetB fields key dflt)
  | _ => .error getAttrErr

/-- Does `q` begin the character list `s`? (helper for substring test). -/
def headSeg : List Char → List Char → Bool
  | [], _ => true
  | _ :: _, [] => false
  | a :: as, b :: bs => a == b && headSeg as bs

/-- Does `q` occur contiguously inside `s`? (helper for substring test). -/
def hasSegment (q s : List Char) : Bool :=
  match s with
  | [] => q.isEmpty
  | c :: t => headSeg q (c :: t) || hasSegment q t

/-- Python's `q in s` on strings: raw, case-sensitive substring
containment (final.py line 52). -/
def strContains (s q : String) : Bool :=
  hasSegment q.toList s.toList

/-- The keyword predicate of the comprehension at final.py lines 50-53,
restricted to mapping records: `q in str(p.get("series","")) or
q in str(p.get("model",""))`. -/
def kwMatchB (q : String) (p : JValue) : Bool :=
  match p with
  | .jobj fields =>
    strContains (pyStr ((jLookup fields "series").getD (.jstr ""))) q
      || strContains (pyStr ((jLookup fields "model").getD (.jstr ""))) q
  | _ => false

/-- The keyword predicate on an arbitrary record element: `.get` raises on
a non-mapping receiver. -/
def keywordMatch (q : String) (p : JValue) : Except String Bool :=
  match p with
  | .jobj _ => .ok (kwMatchB q p)
  | _ => .error getAttrErr

/-- Inclusive range check `lo <= x <= hi` (Python chained comparison). -/
def inB (lo x hi : Rat) : Bool :=
  decide (lo ≤ x) && decide (x ≤ hi)

/-- The eleven numeric inputs and the keyword of `filter_products`
(final.py lines 32-39).  Slider values are numbers; `topk` is truncated
with `int()` at use sites. -/
structure FilterArgs where
  series_keyword : String
  watt_lo : Rat
  watt_hi : Rat
  cct_lo : Rat
  cct_hi : Rat
  beam_lo : Rat
  beam_hi : Rat
  lumen_lo : Rat
  lumen_hi : Rat
  price_lo : Rat
  price_hi : Rat
  topk : Rat

/-- The body of the attribute loop for one record (final.py lines 65-78):
coerce the five attributes with `num(p.get(k, 0))` and keep the record
only when every one of the five `lo <= v <= hi` checks passes (the five
`continue` statements realise the conjunction).  On a non-mapping record
the first `.get` raises. -/
def attrPass (args : FilterArgs) (p : JValue) : Except String Bool :=
  match p with
  | .jobj fields =>
    .ok (inB args.watt_lo (attrNum fields "watt") args.watt_hi
      && inB args.cct_lo (attrNum fields "cct") args.cct_hi
      && inB args.beam_lo (attrNum fields "beam") args.beam_hi
      && inB args.lumen_lo (attrNum fields "lumen") args.lumen_hi
      && inB args.price_lo (attrNum fields "price") args.price_hi)
  | _ => .error getAttrErr

/-- One line of the report (final.py lines 89-97), for a mapping record. -/
def renderLineB (fields : List (String × JValue)) : String :=
  "- **系列：" ++ fmtGetB fields "series" "未標示系列"
    ++ "**｜型號：`" ++ fmtGetB fields "model" "未命名"
    ++ "` | 功率：" ++ fmtGetB fields "watt" "?"
    ++ "W | 色溫：" ++ fmtGetB fields "cct" "?"
    ++ "K | 光束角：" ++ fmtGetB fields "beam" "?"
    ++ "° | 光通量：" ++ fmtGetB fields "lumen" "?"
    ++ "lm | 價格：" ++ fmtGetB fields "price" "?"
    ++ " 元"

/-- One line of the report on an arbitrary record element (`.get` raises
on non-mappings). -/
def renderLine (p : JValue) : Except String String :=
  match p with
  | .jobj fields => .ok (renderLineB fields)
  | _ => .error getAttrErr

/-- A Python list comprehension / filtering loop whose predicate may
raise: the first raise aborts the whole loop. -/
def filterE (f : JValue → Except String Bool) : List JValue → Except String (List JValue)
  | [] => .ok []
  | x :: xs =>
    match f x with
    | .error e => .error e
    | .ok b =>
      match filterE f xs with
      | .error e => .error e
      | .ok rest => .ok (cond b (x :: rest) rest)

/-- Mapping a fallible renderer over a list: the first raise aborts. -/
def mapE (f : JValue → Except String String) : List JValue → Except String (List String)
  | [] => .ok []
  | x :: xs =>
    match f x with
    | .error e => .error e
    | .ok y =>
      match mapE f xs with
      | .error e => .error e
      | .ok ys => .ok (y :: ys)

/-- The guard `if series_keyword and series_keyword.strip():` (final.py
line 47): a string is truthy iff non-empty. -/
def kwActive (args : FilterArgs) : Bool :=
  (args.series_keyword != "") && (pyStrip args.series_keyword != "")

/-- Keyword stage (final.py lines 47-53): when the keyword is active,
keep the records whose `series` or `model` text contains the stripped
keyword; otherwise pass the list through. -/
def stage1 (args : FilterArgs) (products : List JValue) : Except String (List JValue) :=
  cond (kwActive args) (filterE (keywordMatch (pyStrip args.series_keyword)) products)
    (.ok products)

/-- The composite of the keyword stage and the attribute stage: the
subsequence of records the report is built from (final.py lines 47-78). -/
def filteredResult (args : FilterArgs) (products : List JValue) : Except String (List JValue) :=
  match stage1 args products with
  | .error e => .error e
  | .ok base => filterE (attrPass args) base

/-- Python `int()` truncation (toward zero) on a number. -/
def pyIntRat (q : Rat) : Int :=
  if 0 ≤ q then ⌊q⌋ else ⌈q⌉

/-- Python slice `l[:k]` with an `Int` bound: a non-negative bound takes a
prefix, a negative bound drops `-k` elements from the end. -/
def pySlice (l : List JValue) (k : Int) : List JValue :=
  if 0 ≤ k then l.take k.toNat else l.take (l.length - (-k).toNat)

/-- The records actually rendered: `result[:int(topk)]` (final.py line 88). -/
def displayedRecords (topk : Rat) (result : List JValue) : List JValue :=
  pySlice result (pyIntRat topk)

/-- Rendering stage (final.py lines 87-98): the header line states
`len(result)` and `int(topk)`, then one line per displayed record, all
joined by newlines. -/
def renderReport (topk : Rat) (result : List JValue) : Except String String :=
  match mapE renderLine (displayedRecords topk result) with
  | .error e => .error e
  | .ok body =>
    .ok (pyJoin "\n"
      (("### 篩選結果：共 " ++ toString result.length ++ " 筆（顯示前 "
        ++ toString (pyIntRat topk) ++ " 筆）\n") :: body))

/-- `filter_products` (final.py lines 32-98), with the module-level
`products` list passed explicitly.  `.error` marks an uncaught Python
exception escaping to the caller. -/
def filter_products (args : FilterArgs) (products : List JValue) : Except String String :=
  cond products.isEmpty (.ok "⚠️ 尚未載入產品資料。")
    (match stage1 args products with
      | .error e => .error e
      | .ok base =>
        cond (kwActive args && base.isEmpty)
          (.ok ("❌ 找不到與「" ++ args.series_keyword ++ "」相關的系列 / 型號。"))
          (match filterE (attrPass args) base with
            | .error e => .error e
            | .ok result =>
              cond result.isEmpty
                (.ok (cond (kwActive args)
                  ("❌ 系列關鍵字「" ++ args.series_keyword ++ "」下沒有符合屬性條件的產品。")
                  "❌ 沒有任何產品符合屬性條件。"))
                (renderReport args.topk result)))

/-- Store-passing reading of `filter_products`: the module-level
`products` list is the store.  Every reference to it in the body
(final.py lines 41, 44, 51) is a read, and `base` and `result` are newly
built lists, so the call leaves the store exactly as it found it. -/
def filter_products_st (args : FilterArgs) (store : List JValue) :
    List JValue × Except String String :=
  (store, filter_products args store)

/-- The fixed data path (final.py line 15); the directory part of the
absolute path is irrelevant to every claim. -/
def DATA_FILE : String :=
  "merged_products_with_series.json"

/-- Outcome of the file probe and `json.load` of final.py lines 18-22,
which are the only I/O; the loader's own logic is deterministic in it. -/
inductive LoadInput where
  | fileMissing
  | readFailure (e : String)
  | parsedData (v : JValue)

/-- `load_products` (final.py lines 17-27): empty list plus a status
message on any failure; the parsed list verbatim plus a count message on
success; a parsed non-array is reported as a format error. -/
def load_products (inp : LoadInput) : List JValue × String :=
  match inp with
  | .fileMissing => ([], "❌ 找不到 " ++ DATA_FILE ++ "，請先確認檔案存在。")
  | .readFailure e => ([], "❌ 載入失敗：" ++ e)
  | .parsedData v =>
    match v with
    | .jarr elems => (elems, "✅ 已載入 " ++ toString elems.length ++ " 筆資料。")
    | _ => ([], "❌ 檔案格式錯誤：最外層應為陣列(list)。")

/-! ## Supporting lemmas -/

/-- A failing filter loop: `.ok` output implies each kept element passed
its test with `true`, and the output is a sublist of the input. -/
lemma filterE_ok_elim {f : JValue → Except String Bool} :
    ∀ {l r : List JValue}, filterE f l = Except.ok r →
      r.Sublist l ∧ ∀ p ∈ r, f p = Except.ok true := by
  intro l
  induction l with
  | nil =>
    intro r h
    injection h with h2
    subst h2
    exact ⟨List.Sublist.refl _, fun p hp => absurd hp (List.not_mem_nil p)⟩
  | cons x xs ih =>
    intro r h
    simp only [filterE] at h
    cases hfx : f x with
    | error e => rw [hfx] at h; exact Except.noConfusion h
    | ok b =>
      rw [hfx] at h
      cases hrec : filterE f xs with
      | error e => rw [hrec] at h; exact Except.noConfusion h
      | ok rest =>
        rw [hrec] at h
        injection h with h2
        subst h2
        obtain ⟨hsub, hmem⟩ := ih hrec
        cases b with
        | true =>
          refine ⟨List.Sublist.cons₂ x hsub, ?_⟩
          intro p hp
          cases hp with
          | head => exact hfx
          | tail _ hp2 => exact hmem p hp2
        | false =>
          exact ⟨List.Sublist.cons x hsub, hmem⟩

/-- When the test is total on the list, the failing filter loop agrees
with `List.filter`. -/
lemma filterE_eq_filter {f : JValue → Except String Bool} {g : JValue → Bool} :
    ∀ {l : List JValue}, (∀ p ∈ l, f p = Except.ok (g p)) →
      filterE f l = Except.ok (l.filter g) := by
  intro l
  induction l with
  | nil => intro _; rfl
  | cons x xs ih =>
    intro h
    have hx := h x (List.mem_cons_self x xs)
    have hxs := ih fun p hp => h p (List.mem_cons_of_mem x hp)
    simp only [filterE, hx, hxs]
    cases hg : g x <;> simp [List.filter_cons, hg]

/-- When the test succeeds on every element, the failing filter loop
succeeds, with a sublist of the input. -/
lemma filterE_exists_ok {f : JValue → Except String Bool} :
    ∀ {l : List JValue}, (∀ p ∈ l, ∃ b, f p = Except.ok b) →
      ∃ r, filterE f l = Except.ok r ∧ r.Sublist l := by
  intro l
  induction l with
  | nil => intro _; exact ⟨[], rfl, List.Sublist.refl _⟩
  | cons x xs ih =>
    intro h
    obtain ⟨b, hb⟩ := h x (List.mem_cons_self x xs)
    obtain ⟨rest, hrest, hsub⟩ := ih fun p hp => h p (List.mem_cons_of_mem x hp)
    refine ⟨cond b (x :: rest) rest, ?_, ?_⟩
    · simp only [filterE, hb, hrest]
    · cases b with
      | true => exact List.Sublist.cons₂ x hsub
      | false => exact List.Sublist.cons x hsub

/-- When the renderer succeeds on every element, the failing map loop
succeeds. -/
lemma mapE_exists_ok {f : JValue → Except String String} :
    ∀ {l : List JValue}, (∀ p ∈ l, ∃ y, f p = Except.ok y) →
      ∃ r, mapE f l = Except.ok r := by
  intro l
  induction l with
  | nil => intro _; exact ⟨[], rfl⟩
  | cons x xs ih =>
    intro h
    obtain ⟨y, hy⟩ := h x (List.mem_cons_self x xs)
    obtain ⟨ys, hys⟩ := ih fun p hp => h p (List.mem_cons_of_mem x hp)
    exact ⟨y :: ys, by simp only [mapE, hy, hys]⟩

/-- A record element on which the attribute stage succeeds is a mapping. -/
lemma attrPass_ok_obj {args : FilterArgs} {p : JValue} {b : Bool}
    (h : attrPass args p = Except.ok b) : p.isObj = true := by
  cases p <;> first
    | rfl
    | exact Except.noConfusion h

/-- A mapping always passes through `attrPass` without raising. -/
lemma attrPass_obj_ok {args : FilterArgs} {p : JValue} (h : p.isObj = true) :
    ∃ b, attrPass args p = Except.ok b := by
  cases p <;> first
    | exact ⟨_, rfl⟩
    | exact Bool.noConfusion h

/-- A mapping always passes through `keywordMatch` without raising. -/
lemma keywordMatch_obj_ok {q : String} {p : JValue} (h : p.isObj = true) :
    keywordMatch q p = Except.ok (kwMatchB q p) := by
  cases p <;> first
    | rfl
    | exact Bool.noConfusion h

/-- A mapping always renders without raising. -/
lemma renderLine_obj_ok {p : JValue} (h : p.isObj = true) :
    ∃ y, renderLine p = Except.ok y := by
  cases p <;> first
    | exact ⟨_, rfl⟩
    | exact Bool.noConfusion h

/-- The elements of a truncated list come from the list. -/
lemma mem_of_mem_pySlice {l : List JValue} {k : Int} {p : JValue}
    (hp : p ∈ pySlice l k) : p ∈ l := by
  unfold pySlice at hp
  split at hp <;>
    · rw [← List.take_append_drop _ l]
      exact List.mem_append_left _ hp

/-- A join always extends its first part. -/
lemma pyJoin_head (sep a : String) (l : List String) :
    ∃ r, pyJoin sep (a :: l) = a ++ r := by
  cases l with
  | nil => exact ⟨"", (String.append_empty a).symm⟩
  | cons b bs => exact ⟨sep ++ pyJoin sep (b :: bs), by rw [pyJoin, String.append_assoc]⟩

/-- On a result list of mappings, the rendering stage succeeds and its
output begins with the header line built from the total count and the
truncated display cap. -/
lemma renderReport_ok {topk : Rat} {result : List JValue}
    (h : ∀ p ∈ result, JValue.isObj p = true) :
    ∃ rest, renderReport topk result =
      Except.ok (("### 篩選結果：共 " ++ toString result.length ++ " 筆（顯示前 "
        ++ toString (pyIntRat topk) ++ " 筆）\n") ++ rest) := by
  obtain ⟨body, hbody⟩ :=
    mapE_exists_ok (f := renderLine) (l := displayedRecords topk result)
      fun p hp => renderLine_obj_ok (h p (mem_of_mem_pySlice hp))
  obtain ⟨r, hr⟩ := pyJoin_head "\n"
    ("### 篩選結果：共 " ++ toString result.length ++ " 筆（顯示前 "
      ++ toString (pyIntRat topk) ++ " 筆）\n") body
  exact ⟨r, by simp only [renderReport, hbody, hr]⟩

/-- The keyword stage returns a sublist of the input. -/
lemma stage1_sublist {args : FilterArgs} {products base : List JValue}
    (h : stage1 args products = Except.ok base) : base.Sublist products := by
  unfold stage1 at h
  cases hkw : kwActive args with
  | false =>
    rw [hkw] at h
    injection h with h2
    subst h2
    exact List.Sublist.refl _
  | true =>
    rw [hkw] at h
    exact (filterE_ok_elim h).1

/-! ## Concrete fixtures -/

/-- The single record of the spec's Scenario B. -/
def recB : JValue :=
  .jobj [("series", .jstr "Track-100"), ("model", .jstr "TR-1"),
    ("watt", .jint 30), ("cct", .jint 3000), ("beam", .jint 24),
    ("lumen", .jint 2000), ("price", .jint 500)]

/-- Empty keyword, the documented default bounds (watt [0,200],
cct [2000,7000], beam [0,120], lumen [0,15000], price [0,200000]) and
display cap 20. -/
def argsB : FilterArgs :=
  ⟨"", 0, 200, 2000, 7000, 0, 120, 0, 15000, 0, 200000, 20⟩

/-- Scenario C: keyword `"Panel"`, same bounds. -/
def argsP : FilterArgs :=
  { argsB with series_keyword := "Panel" }

/-! ## Claims -/

/-- The full report the code produces for Scenario B (one surviving
record, cap 20): the header names the cap 20, not the single displayed
record. -/
def reportB : String :=
  "### 篩選結果：共 1 筆（顯示前 20 筆）\n\n- **系列：Track-100**｜型號：`TR-1` | 功率：30W | 色溫：3000K | 光束角：24° | 光通量：2000lm | 價格：500 元"

/-- C1 counterexample: with one surviving record and topK = 20, exactly
one record is displayed, yet the header reports the cap 20 (`顯示前 20
筆`) and nowhere states 1 as the number displayed — the header does not
state the number actually displayed. -/
theorem C1_counterexample :
    filteredResult argsB [recB] = Except.ok [recB]
    ∧ (displayedRecords argsB.topk [recB]).length = 1
    ∧ filter_products argsB [recB] = Except.ok reportB
    ∧ strContains reportB "顯示前 20 筆" = true
    ∧ strContains reportB "顯示前 1 筆" = false :=
  ⟨rfl, rfl, rfl, rfl, rfl⟩

/-- C1 (amended): for every non-empty filtered result, the report begins
with a header line stating the total surviving count and the truncated
display cap `int(topk)` — not the number actually displayed. -/
theorem C1_amended (args : FilterArgs) (products result : List JValue)
    (hne : products ≠ [])
    (hres : filteredResult args products = Except.ok result)
    (hr : result ≠ []) :
    ∃ rest, filter_products args products =
      Except.ok (("### 篩選結果：共 " ++ toString result.length ++ " 筆（顯示前 "
        ++ toString (pyIntRat args.topk) ++ " 筆）\n") ++ rest) := by
  unfold filteredResult at hres
  cases hstage : stage1 args products with
  | error e => rw [hstage] at hres; exact Except.noConfusion hres
  | ok base =>
    rw [hstage] at hres
    have hobjres : ∀ p ∈ result, JValue.isObj p = true :=
      fun p hp => attrPass_ok_obj ((filterE_ok_elim hres).2 p hp)
    obtain ⟨rest, hrep⟩ := @renderReport_ok args.topk _ hobjres
    refine ⟨rest, ?_⟩
    obtain ⟨x, xs, rfl⟩ : ∃ x xs, products = x :: xs := by
      cases products with
      | nil => exact absurd rfl hne
      | cons x xs => exact ⟨x, xs, rfl⟩
    obtain ⟨y, ys, rfl⟩ : ∃ y ys, base = y :: ys := by
      cases base with
      | nil =>
        injection hres with h2
        exact absurd h2.symm hr
      | cons y ys => exact ⟨y, ys, rfl⟩
    obtain ⟨z, zs, rfl⟩ : ∃ z zs, result = z :: zs := by
      cases result with
      | nil => exact absurd rfl hr
      | cons z zs => exact ⟨z, zs, rfl⟩
    have hres2 : filterE (attrPass args) (y :: ys) = Except.ok (z :: zs) := hres
    simp only [filter_products, List.isEmpty_cons, cond_false, hstage, Bool.and_false]
    rw [hres2]
    exact hrep

/-- C2 counterexample: a record collection containing a non-object
element (the bare integer 42) makes `filter_products` raise
`AttributeError` out of the attribute loop — an exception reaches the
caller. -/
theorem C2_counterexample :
    filter_products argsB [JValue.jint 42] = Except.error getAttrErr := rfl

/-- C2 (amended): for every record collection whose elements are all
JSON objects, `filter_products` returns a text result and never raises,
whatever malformed field contents the objects hold. -/
theorem C2_amended (args : FilterArgs) (products : List JValue)
    (hobj : ∀ p ∈ products, JValue.isObj p = true) :
    ∃ s, filter_products args products = Except.ok s := by
  cases products with
  | nil => exact ⟨_, rfl⟩
  | cons x xs =>
    have hs1 : ∃ base, stage1 args (x :: xs) = Except.ok base ∧ base.Sublist (x :: xs) := by
      unfold stage1
      cases hkw : kwActive args with
      | false => exact ⟨x :: xs, rfl, List.Sublist.refl _⟩
      | true =>
        exact filterE_exists_ok fun p hp =>
          ⟨kwMatchB (pyStrip args.series_keyword) p, keywordMatch_obj_ok (hobj p hp)⟩
    obtain ⟨base, hbase, hsubb⟩ := hs1
    have hobjb : ∀ p ∈ base, JValue.isObj p = true := fun p hp => hobj p (hsubb.subset hp)
    obtain ⟨result, hres, hsubr⟩ :=
      filterE_exists_ok (f := attrPass args) fun p hp => attrPass_obj_ok (hobjb p hp)
    have hobjr : ∀ p ∈ result, JValue.isObj p = true := fun p hp => hobjb p (hsubr.subset hp)
    simp only [filter_products, List.isEmpty_cons, cond_false, hbase, hres]
    cases hkb : (kwActive args && base.isEmpty) with
    | true => exact ⟨_, rfl⟩
    | false =>
      cases hre : result.isEmpty with
      | true => exact ⟨_, rfl⟩
      | false =>
        obtain ⟨rest, hrep⟩ := @renderReport_ok args.topk _ hobjr
        exact ⟨_, hrep⟩

/-- C2 witness: a well-formed collection with malformed field values
(non-numeric string, JSON null) still yields a text result. -/
theorem C2_amended_witness :
    ∃ s, filter_products argsB
      [JValue.jobj [("watt", JValue.jstr "oops"), ("cct", JValue.jnull)]] = Except.ok s :=
  C2_amended argsB _ (by decide)

/-- C1 witness: Scenario B instantiation of the amended header law. -/
theorem C1_amended_witness :
    ∃ rest, filter_products argsB [recB] =
      Except.ok (("### 篩選結果：共 " ++ toString (List.length [recB]) ++ " 筆（顯示前 "
        ++ toString (pyIntRat argsB.topk) ++ " 筆）\n") ++ rest) :=
  C1_amended argsB [recB] [recB] (List.cons_ne_nil recB []) rfl (List.cons_ne_nil recB [])

/-- C6: a parsed empty JSON array loads as the empty sequence with the
success message counting 0 records, while any parsed non-array top-level
value loads as the empty sequence with the format-error message. -/
theorem C6_load_empty_and_nonarray (v : JValue) (hv : JValue.isArr v = false) :
    load_products (.parsedData (.jarr [])) = ([], "✅ 已載入 0 筆資料。")
    ∧ load_products (.parsedData v) = ([], "❌ 檔案格式錯誤：最外層應為陣列(list)。") := by
  refine ⟨rfl, ?_⟩
  cases v <;> first
    | rfl
    | exact Bool.noConfusion hv

/-- C6 witness: instantiation at the non-array top-level value `null`. -/
theorem C6_witness :
    load_products (.parsedData (.jarr [])) = ([], "✅ 已載入 0 筆資料。")
    ∧ load_products (.parsedData .jnull) = ([], "❌ 檔案格式錯誤：最外層應為陣列(list)。") :=
  C6_load_empty_and_nonarray .jnull rfl

/-- C3: when one of the five attributes is missing or its value defeats
`float`, the comparison value is 0, and a missing attribute additionally
renders as the `?` placeholder — both facts about the same record. -/
theorem C3_coercion_and_placeholder (fields : List (String × JValue)) (key : String)
    (hkey : key ∈ ["watt", "cct", "beam", "lumen", "price"])
    (hmiss : jLookup fields key = none
      ∨ ∃ v, jLookup fields key = some v ∧ pyFloat? v = none) :
    attrNum fields key = 0
    ∧ (jLookup fields key = none → fmtGet (.jobj fields) key "?" = Except.ok "?") := by
  constructor
  · cases hmiss with
    | inl h => simp [attrNum, h, num, pyFloat?]
    | inr h =>
      obtain ⟨v, hv, hnum⟩ := h
      simp [attrNum, hv, num, hnum]
  · intro h
    simp [fmtGet, fmtGetB, h]

/-- C3 witness: a record with no `watt` key compares it as 0 and renders
it as `?`. -/
theorem C3_witness :
    attrNum [] "watt" = 0 ∧ fmtGet (.jobj []) "watt" "?" = Except.ok "?" := by
  have h := C3_coercion_and_placeholder [] "watt" (by decide) (Or.inl rfl)
  exact ⟨h.1, h.2 rfl⟩

/-- C10: an attribute key present with JSON null is compared as 0 (the
coercion swallows the `TypeError` of `float(None)`) yet renders as the
text `None`; the renderer emits the `?` placeholder exactly on the
absent-key branch, and otherwise emits `str` of the stored value. -/
theorem C10_null_vs_missing (fields : List (String × JValue)) (key : String)
    (hkey : key ∈ ["watt", "cct", "beam", "lumen", "price"]) :
    (jLookup fields key = some .jnull →
      attrNum fields key = 0 ∧ fmtGet (.jobj fields) key "?" = Except.ok "None")
    ∧ (∀ v, jLookup fields key = some v →
        fmtGet (.jobj fields) key "?" = Except.ok (pyStr v))
    ∧ (jLookup fields key = none → fmtGet (.jobj fields) key "?" = Except.ok "?") := by
  refine ⟨?_, ?_, ?_⟩
  · intro h
    exact ⟨by simp [attrNum, h, num, pyFloat?], by simp [fmtGet, fmtGetB, h, pyStr]⟩
  · intro v hv
    simp [fmtGet, fmtGetB, hv]
  · intro h
    simp [fmtGet, fmtGetB, h]

/-- C10 witness: `watt` bound to null compares as 0 and renders `None`. -/
theorem C10_witness :
    attrNum [("watt", JValue.jnull)] "watt" = 0
    ∧ fmtGet (.jobj [("watt", JValue.jnull)]) "watt" "?" = Except.ok "None" :=
  (C10_null_vs_missing [("watt", JValue.jnull)] "watt" (by decide)).1 rfl

/-- C5: the attribute stage keeps a record exactly when all five coerced
values lie within their inclusive bounds — a pure conjunction. -/
theorem C5_conjunctive_bounds (args : FilterArgs) (fields : List (String × JValue)) :
    attrPass args (.jobj fields) = Except.ok true ↔
      ((args.watt_lo ≤ attrNum fields "watt" ∧ attrNum fields "watt" ≤ args.watt_hi)
      ∧ (args.cct_lo ≤ attrNum fields "cct" ∧ attrNum fields "cct" ≤ args.cct_hi)
      ∧ (args.beam_lo ≤ attrNum fields "beam" ∧ attrNum fields "beam" ≤ args.beam_hi)
      ∧ (args.lumen_lo ≤ attrNum fields "lumen" ∧ attrNum fields "lumen" ≤ args.lumen_hi)
      ∧ (args.price_lo ≤ attrNum fields "price" ∧ attrNum fields "price" ≤ args.price_hi)) := by
  simp [attrPass, inB, Bool.and_eq_true, decide_eq_true_eq, and_assoc]

/-- A head-segment test succeeds exactly on list extensions. -/
lemma headSeg_iff (q : List Char) : ∀ s, headSeg q s = true ↔ ∃ t, q ++ t = s := by
  induction q with
  | nil => intro s; simp [headSeg]
  | cons a as ih =>
    intro s
    cases s with
    | nil => simp [headSeg]
    | cons b bs =>
      simp [headSeg, ih, exists_and_left]

/-- The segment test succeeds exactly on contiguous occurrences. -/
lemma hasSegment_iff (q : List Char) : ∀ s, hasSegment q s = true ↔ ∃ a b, a ++ (q ++ b) = s := by
  intro s
  induction s with
  | nil =>
    rw [hasSegment]
    constructor
    · intro h
      exact ⟨[], [], by simp [List.isEmpty_iff.mp h]⟩
    · rintro ⟨a, b, h⟩
      obtain ⟨-, h2⟩ := List.append_eq_nil.mp h
      obtain ⟨h3, -⟩ := List.append_eq_nil.mp h2
      simp [h3]
  | cons c cs ih =>
    rw [hasSegment]
    simp only [Bool.or_eq_true, headSeg_iff, ih]
    constructor
    · rintro (⟨b, hb⟩ | ⟨a, b, hab⟩)
      · exact ⟨[], b, by simpa using hb⟩
      · exact ⟨c :: a, b, by simp [hab]⟩
    · rintro ⟨a, b, hab⟩
      cases a with
      | nil => exact Or.inl ⟨b, by simpa using hab⟩
      | cons a0 as =>
        rw [List.cons_append] at hab
        injection hab with h1 h2
        subst h1
        exact Or.inr ⟨as, b, h2⟩

/-- Python substring containment, characterised: `q in s` holds exactly
when `q` occurs contiguously (case-sensitively) inside `s`. -/
lemma strContains_iff (s pat : String) :
    strContains s pat = true ↔ ∃ a b, a ++ pat.toList ++ b = s.toList := by
  rw [strContains, hasSegment_iff]
  constructor
  · rintro ⟨a, b, h⟩
    exact ⟨a, b, by rw [List.append_assoc]; exact h⟩
  · rintro ⟨a, b, h⟩
    exact ⟨a, b, by rw [← List.append_assoc]; exact h⟩

/-- C4: with a keyword that is non-empty after trimming, the keyword
stage keeps exactly the records whose `series` or `model` text contains
the trimmed keyword as a contiguous case-sensitive substring; and when
that filter keeps nothing, `filter_products` returns the no-match message
naming the raw keyword (so the attribute stage is never reached). -/
theorem C4_keyword_stage (args : FilterArgs) (products : List JValue)
    (hobj : ∀ p ∈ products, JValue.isObj p = true)
    (hkw : (pyStrip args.series_keyword) ≠ "") :
    stage1 args products =
        Except.ok (products.filter (kwMatchB (pyStrip args.series_keyword)))
    ∧ (∀ s pat : String, strContains s pat = true ↔
        ∃ a b, a ++ pat.toList ++ b = s.toList)
    ∧ (products.filter (kwMatchB (pyStrip args.series_keyword)) = [] → products ≠ [] →
        filter_products args products =
          Except.ok ("❌ 找不到與「" ++ args.series_keyword ++ "」相關的系列 / 型號。")) := by
  have hsk : args.series_keyword ≠ "" := by
    intro he
    apply hkw
    rw [he]
    rfl
  have hkwA : kwActive args = true := by
    simp [kwActive, bne_iff_ne, hsk, hkw]
  have hst : stage1 args products =
      Except.ok (products.filter (kwMatchB (pyStrip args.series_keyword))) := by
    unfold stage1
    rw [hkwA]
    exact filterE_eq_filter fun p hp => keywordMatch_obj_ok (hobj p hp)
  refine ⟨hst, fun s pat => strContains_iff s pat, ?_⟩
  intro hfil hne
  obtain ⟨x, xs, rfl⟩ : ∃ x xs, products = x :: xs := by
    cases products with
    | nil => exact absurd rfl hne
    | cons x xs => exact ⟨x, xs, rfl⟩
  simp only [filter_products, List.isEmpty_cons, cond_false, hst, hfil, hkwA,
    List.isEmpty_nil, Bool.and_true, cond_true]

/-- C4 witness: Scenario C — keyword `"Panel"` against the Track-100
record short-circuits with the keyword message. -/
theorem C4_witness :
    filter_products argsP [recB] =
      Except.ok ("❌ 找不到與「Panel」相關的系列 / 型號。") :=
  (C4_keyword_stage argsP [recB] (by decide) (by decide)).2.2 rfl (List.cons_ne_nil recB [])

/-- C7: the displayed records are a prefix of the filtered subsequence,
and the filtered subsequence is a sublist (hence a suborder) of the
input — no stage reorders. -/
theorem C7_order_preservation (args : FilterArgs) (products result : List JValue)
    (h : filteredResult args products = Except.ok result) :
    (∃ t, displayedRecords args.topk result ++ t = result)
    ∧ result.Sublist products := by
  constructor
  · unfold displayedRecords pySlice
    split
    · exact ⟨result.drop (pyIntRat args.topk).toNat, List.take_append_drop _ result⟩
    · exact ⟨result.drop (result.length - (-(pyIntRat args.topk)).toNat),
        List.take_append_drop _ result⟩
  · unfold filteredResult at h
    cases hstage : stage1 args products with
    | error e => rw [hstage] at h; exact Except.noConfusion h
    | ok base =>
      rw [hstage] at h
      exact ((filterE_ok_elim h).1).trans (stage1_sublist hstage)

/-- C7 witness: Scenario B instantiation. -/
theorem C7_witness :
    (∃ t, displayedRecords argsB.topk [recB] ++ t = [recB])
    ∧ List.Sublist [recB] [recB] :=
  C7_order_preservation argsB [recB] [recB] rfl

/-- C8: a `filter_products` call leaves the shared record store exactly
as it found it — filtering builds new lists and the output is a pure
function of the arguments and the store. -/
theorem C8_no_mutation (args : FilterArgs) (store : List JValue) :
    (filter_products_st args store).1 = store
    ∧ (filter_products_st args store).2 = filter_products args store :=
  ⟨rfl, rfl⟩

/-- C9: a second call with identical arguments, run on the store the
first call left behind, returns the same output text. -/
theorem C9_idempotent_query (args : FilterArgs) (store : List JValue) :
    (filter_products_st args (filter_products_st args store).1).2 =
      (filter_products_st args store).2 :=
  rfl
